/-
A shallow embedding in Lean 4 of the credential-store core of the
`access` repository (file `src/encrypter.py`): the `Credentials` record
type with its validation, parsing and serialization, and the `Encrypter`
session state with its add/search/remove/commit operations.

Modelling conventions:
 * Python strings are Lean `String`s; character-level operations work on
   `String.data : List Char`.
 * Python's `str.split()` / `str.strip()` whitespace class is modelled by
   `pyIsSpace`, covering the ASCII whitespace characters; the regex class
   `\d` is modelled by ASCII decimal digits (`isDig`).
 * Python sets of `Credentials` are `Finset Credentials`; the generated
   dataclass equality and hash compare all fields (`id` included), which
   matches `Finset` membership under the derived `DecidableEq`.
 * Exceptions that the source raises are modelled with `Option`/`Except`;
   exceptions that the source catches and logs (the per-line `except` in
   `Credentials.from_string`) are modelled by the surrounding function
   absorbing the `none` case.
 * The external collaborators are parameters: the gnupg backend result is
   a `Bool` (its `result.ok`), `re.search pattern text` is an abstract
   `rm : String → String → Bool`, the directory listing is a membership
   predicate `String → Bool`, `datetime.today().strftime` is a `String`
   parameter, and `uuid.uuid4()` is a `String` parameter.
 * For patterns that contain no regex metacharacters, `re.search` matches
   iff the pattern occurs in the text as a contiguous substring, and it is
   case sensitive because the source passes no `re.IGNORECASE` flag;
   `litSearch` embodies exactly that.
-/
import Mathlib

set_option autoImplicit false

/-- ASCII whitespace, the characters Python's `str.split()` and
`str.strip()` split and strip on (restricted to the ASCII range). -/
def pyIsSpace (c : Char) : Bool :=
  c == ' ' || c == '\t' || c == '\n' || c == '\r' || c == '\x0b' || c == '\x0c'

/-- ASCII decimal digit, modelling the regex class `\d`. -/
def isDig (c : Char) : Bool :=
  '0' ≤ c && c ≤ '9'

/-- Worker for `pySplit`: accumulate the current (reversed) token while
scanning; whitespace closes the token.  Models Python `str.split()`
(split on runs of whitespace, no empty tokens). -/
def pySplitGo : List Char → List Char → List (List Char)
  | [], acc => if acc.isEmpty then [] else [acc.reverse]
  | c :: cs, acc =>
    if pyIsSpace c then
      if acc.isEmpty then pySplitGo cs [] else acc.reverse :: pySplitGo cs []
    else
      pySplitGo cs (c :: acc)

/-- Python `line.split()`: whitespace-delimited tokens, empties dropped. -/
def pySplit (l : List Char) : List (List Char) :=
  pySplitGo l []

/-- Python `s.split("\n")`: split at every newline, keeping empty parts. -/
def splitNl : List Char → List (List Char)
  | [] => [[]]
  | c :: cs =>
    if c = '\n' then [] :: splitNl cs
    else
      match splitNl cs with
      | [] => [[c]]
      | t :: ts => (c :: t) :: ts

/-- Python `s.strip()`: drop leading and trailing whitespace. -/
def pyStrip (l : List Char) : List Char :=
  ((l.dropWhile pyIsSpace).reverse.dropWhile pyIsSpace).reverse

/-- `field_value.count(" ")` is nonzero: the string contains the space
character (only U+0020, exactly as the source's check). -/
def hasSpaceChar (s : String) : Bool :=
  s.data.any (fun c => c == ' ')

/-- Does `pat` occur at the head of `text`? -/
def leadsWith : List Char → List Char → Bool
  | [], _ => true
  | _ :: _, [] => false
  | a :: as, b :: bs => a == b && leadsWith as bs

/-- Does `pat` occur in `text` as a contiguous substring? -/
def hasSub (pat : List Char) : List Char → Bool
  | [] => leadsWith pat []
  | c :: rest => leadsWith pat (c :: rest) || hasSub pat rest

/-- Python `re.search(pattern, text) is not None` for a pattern with no
regex metacharacters: the pattern occurs in the text as a substring.
Case sensitive, because the source passes no `re.IGNORECASE` flag. -/
def litSearch (pat text : String) : Bool :=
  hasSub pat.data text.data

/-- ASCII lower-casing of a string, to express what a case-insensitive
(case-folded) match of a literal pattern would be. -/
def pyLower (s : String) : String :=
  ⟨s.data.map Char.toLower⟩

/-- `re.match(r"\d\d.\d\d.\d\d\d\d", s)` from `Credentials.__post_init__`:
anchored at the start only, `.` matches any character EXCEPT a newline
(the re default, no `re.DOTALL`), characters after position 9 are
unconstrained. -/
def matchesDatePattern (s : String) : Bool :=
  match s.data with
  | d1 :: d2 :: w1 :: m1 :: m2 :: w2 :: y1 :: y2 :: y3 :: y4 :: _ =>
    isDig d1 && isDig d2 && !(w1 == '\n') && isDig m1 && isDig m2 &&
      !(w2 == '\n') && isDig y1 && isDig y2 && isDig y3 && isDig y4
  | _ => false

/-- The character shape `dd.mm.yyyy`: exactly ten characters, digits at
positions 0,1,3,4,6,7,8,9 and a dot at positions 2 and 5.  This is the
spec's "well-formed `dd.mm.yyyy`" reading of a date string. -/
def wellFormedDate (s : String) : Bool :=
  match s.data with
  | [d1, d2, s1, m1, m2, s2, y1, y2, y3, y4] =>
    isDig d1 && isDig d2 && s1 == '.' && isDig m1 && isDig m2 && s2 == '.' &&
      isDig y1 && isDig y2 && isDig y3 && isDig y4
  | _ => false

/-- One credentials record, `Credentials` of `src/encrypter.py`: a frozen
dataclass whose generated equality and hash compare all six fields. -/
structure Credentials where
  id : Nat
  resource : String
  login : String
  password : String
  kind : String
  updated_on : String
deriving DecidableEq, Repr

namespace Credentials

/-- `Credentials.__post_init__` succeeds: no string field contains the
space character, and `updated_on` matches the date regex.  The loop over
`fields(self)` visits `id` too, but the `isinstance(.., str)` guard skips
it. -/
def validFields (resource login password kind updated_on : String) : Bool :=
  !hasSpaceChar resource && !hasSpaceChar login && !hasSpaceChar password &&
    !hasSpaceChar kind && !hasSpaceChar updated_on &&
    matchesDatePattern updated_on

/-- Constructing `Credentials(id, resource, login, password, kind,
updated_on)`: `none` models the `ValueError` raised by
`__post_init__`. -/
def mk? (id : Nat) (resource login password kind updated_on : String) :
    Option Credentials :=
  if validFields resource login password kind updated_on then
    some ⟨id, resource, login, password, kind, updated_on⟩
  else
    none

/-- `Credentials.as_line`: the non-`id` fields joined with single
spaces. -/
def as_line (c : Credentials) : String :=
  c.resource ++ " " ++ c.login ++ " " ++ c.password ++ " " ++ c.kind ++ " " ++
    c.updated_on

/-- `Credentials.__str__`: all six fields (the `id` via `str`) joined with
five spaces; this is the display string `search_in_content` matches
against. -/
def displayString (c : Credentials) : String :=
  toString c.id ++ "     " ++ c.resource ++ "     " ++ c.login ++ "     " ++
    c.password ++ "     " ++ c.kind ++ "     " ++ c.updated_on

/-- One iteration of the loop in `Credentials.from_string`:
`cls(i, *line.split())`.  The dataclass call binds the tokens
positionally: fewer than three tokens or more than five raise
`TypeError`, missing `kind`/`updated_on` take the defaults
`"authentication"` and `today` (the import-time
`datetime.today().strftime("%d.%m.%Y")`, a parameter here); validation
failures raise `ValueError`.  All exceptions are caught by the caller, so
the result is an `Option`. -/
def parseLine (today : String) (i : Nat) (line : List Char) :
    Option Credentials :=
  match (pySplit line).map (fun t => String.mk t) with
  | [r, l, p] => mk? i r l p "authentication" today
  | [r, l, p, k] => mk? i r l p k today
  | [r, l, p, k, d] => mk? i r l p k d
  | _ => none

/-- The loop of `Credentials.from_string`: line numbers advance on every
line, parsed or skipped; a failing line contributes nothing. -/
def parseLines (today : String) : Nat → List (List Char) → List Credentials
  | _, [] => []
  | i, l :: ls =>
    match parseLine today i l with
    | some c => c :: parseLines today (i + 1) ls
    | none => parseLines today (i + 1) ls

/-- `Credentials.from_string(string_value, id_start_from)`: strip the
text, split into lines at `"\n"` (`FILE_ITEMS_SEPARATOR`), parse each
line with ids enumerated from `id_start_from`, skipping bad lines, and
collect the results into a set. -/
def from_string (today : String) (string_value : String) (id_start_from : Nat) :
    Finset Credentials :=
  (parseLines today id_start_from (splitNl (pyStrip string_value.data))).toFinset

end Credentials

/-- The mutable state of an `Encrypter` session (`src/encrypter.py`):
the in-memory credentials set, the dirty flag `_is_content_updated`, and
the current-snapshot pointer `encrypted_file_path`. -/
structure Encrypter where
  credentials : Finset Credentials
  is_content_updated : Bool
  encrypted_file_path : Option String
deriving DecidableEq

namespace Encrypter

/-- The state right after the field initializers of `Encrypter.__init__`
(before `_handle_input_path` runs): empty store, dirty flag `False`, no
snapshot pointer. -/
def initState : Encrypter :=
  ⟨∅, false, none⟩

/-- `Encrypter.items_count`: `len(self.__credentials)`. -/
def items_count (e : Encrypter) : Nat :=
  e.credentials.card

/-- `Encrypter._update_credentials`: union the parsed sets into the store
and set the dirty flag unconditionally. -/
def update_credentials (e : Encrypter) (credentials_sets : Finset Credentials) :
    Encrypter :=
  { e with
    credentials := e.credentials ∪ credentials_sets
    is_content_updated := true }

/-- `Encrypter.add_content(content)`: parse the text with ids continuing
from `items_count() + 1` and merge via `_update_credentials`. -/
def add_content (today : String) (e : Encrypter) (content : String) : Encrypter :=
  update_credentials e (Credentials.from_string today content (e.items_count + 1))

/-- `Encrypter.search_in_content(pattern)`: the empty set when the store
is empty, otherwise the records whose `str(c)` matches the pattern.
`rm pattern text` stands for `re.search(pattern, text) is not None`. -/
def search_in_content (rm : String → String → Bool) (e : Encrypter)
    (pattern : String) : Finset Credentials :=
  if e.credentials = ∅ then ∅
  else e.credentials.filter (fun c => rm pattern c.displayString = true)

/-- `Encrypter.remove_credentials(pattern)`: an empty pattern only logs a
warning; otherwise the search matches are subtracted from the store and
the dirty flag is set unconditionally.  The second component is the
Python return value of the method, which is annotated `-> None` and
always returns `None` (modelled as `none : Option Nat`, to compare with
the spec's claim that the count of removed records is returned). -/
def remove_credentials (rm : String → String → Bool) (e : Encrypter)
    (pattern : String) : Encrypter × Option Nat :=
  if pattern = "" then (e, none)
  else
    let found := search_in_content rm e pattern
    ({ e with
        credentials := e.credentials \ found
        is_content_updated := true },
      none)

/-- `Encrypter.encrypt_bytes_content_into_file`: the gnupg call is the
external backend, modelled by its `result.ok` bit; on failure the method
raises `RuntimeError` (the `Except.error` case), on success it returns
the freshly generated output path (a parameter here, see
`generate_file_path` below for its computation). -/
def encrypt_bytes_content_into_file (backendOk : Bool) (newPath : String) :
    Except Unit String :=
  if backendOk then Except.ok newPath else Except.error ()

/-- `Encrypter.encrypt_into_new_file_if_content_updated`: no-op returning
`None` when the store is not dirty; otherwise encrypt, and only after the
backend call succeeded clear the dirty flag and move the snapshot
pointer.  The first component is the state of the object when the method
terminates (also when it terminates by raising); the second is
`Except.error ()` for the propagated `RuntimeError`, or the returned
`Optional[Path]`. -/
def encrypt_into_new_file_if_content_updated (backendOk : Bool)
    (newPath : String) (e : Encrypter) : Encrypter × Except Unit (Option String) :=
  if e.is_content_updated = false then (e, Except.ok none)
  else
    match encrypt_bytes_content_into_file backendOk newPath with
    | Except.error u => (e, Except.error u)
    | Except.ok p =>
      ({ e with is_content_updated := false, encrypted_file_path := some p },
        Except.ok (some p))

/-- `Encrypter.decrypt_file` after its path checks: the gnupg decryption
result is `(ok, data)`; failure raises `ValueError` (`Except.error`),
success sets the snapshot pointer and unions the parsed content into the
store with ids from `items_count() + 1`, leaving the dirty flag
untouched. -/
def decrypt_file_into (today : String) (e : Encrypter) (path : String)
    (ok : Bool) (data : String) : Except Unit Encrypter :=
  if ok then
    Except.ok
      { e with
        encrypted_file_path := some path
        credentials :=
          e.credentials ∪ Credentials.from_string today data (e.items_count + 1) }
  else
    Except.error ()

/-- The plaintext-seed branch of `Encrypter._handle_input_path` (the input
path is a file whose name does not end in `gpg`): starting from the
freshly initialized state, load the text file through
`_get_credentials_from_text_file` (which goes through
`_update_credentials`), then decrypt the newest encrypted file of the
directory when there is one.  `newest = some (path, ok, data)` models
`find_newest_encrypted_file` returning a path whose decryption yields
`(ok, data)`; `none` models an empty directory. -/
def handle_text_file_path (today : String) (seedText : String)
    (newest : Option (String × Bool × String)) : Except Unit Encrypter :=
  let s1 := update_credentials initState
    (Credentials.from_string today seedText (initState.items_count + 1))
  match newest with
  | none => Except.ok s1
  | some (path, ok, data) => decrypt_file_into today s1 path ok data

/-- The candidate file name probed by `Encrypter._generate_file_path` for
index `i`: `access_<ddmmyyyy>` with `_<i>` appended when `i > 1`, plus the
`gpg` extension. -/
def snapshotName (dateStr : String) (i : Nat) : String :=
  "access_" ++ dateStr ++ (if i > 1 then "_" ++ toString i else "") ++ ".gpg"

/-- The `for i in range(1, 1000)` loop of `_generate_file_path`: return
the first probed name that does not exist (`existsFile` is the
`path.exists()` test of the working directory), `none` if the fuel runs
out. -/
def probeNames (existsFile : String → Bool) (dateStr : String) :
    Nat → Nat → Option String
  | 0, _ => none
  | fuel + 1, i =>
    if existsFile (snapshotName dateStr i) then
      probeNames existsFile dateStr fuel (i + 1)
    else some (snapshotName dateStr i)

/-- `Encrypter._generate_file_path`: probe `access_<date>[_i].gpg` for
`i = 1..999`; if every one of the 999 names exists, fall back (after an
error log) to `str(uuid.uuid4()) + ".gpg"` — the uuid is a parameter —
with no existence check and no exception. -/
def generate_file_path (existsFile : String → Bool) (dateStr uuidStr : String) :
    String :=
  match probeNames existsFile dateStr 999 1 with
  | some name => name
  | none => uuidStr ++ ".gpg"

end Encrypter

/-! ### Helper lemmas -/

theorem digit_not_space {c : Char} (h : isDig c = true) : pyIsSpace c = false := by
  have notc : ∀ d : Char, isDig d = false → (c == d) = false := by
    intro d hd
    apply beq_eq_false_iff_ne.mpr
    intro he
    rw [he] at h
    exact absurd h (by simp [hd])
  unfold pyIsSpace
  rw [notc ' ' (by decide), notc '\t' (by decide), notc '\n' (by decide),
    notc '\r' (by decide), notc '\x0b' (by decide), notc '\x0c' (by decide)]
  rfl

theorem not_space_ne_space {c : Char} (h : pyIsSpace c = false) : (c == ' ') = false := by
  unfold pyIsSpace at h
  simp only [Bool.or_eq_false_iff] at h
  exact h.1.1.1.1.1

theorem not_space_ne_nl {c : Char} (h : pyIsSpace c = false) : c ≠ '\n' := by
  intro he
  subst he
  simp [pyIsSpace] at h

theorem hasSpaceChar_eq_false {s : String}
    (h : ∀ c ∈ s.data, pyIsSpace c = false) : hasSpaceChar s = false := by
  unfold hasSpaceChar
  rw [List.any_eq_false]
  intro c hc
  simpa using not_space_ne_space (h c hc)

/-- Scanning a run of non-whitespace characters just accumulates them. -/
theorem pySplitGo_token (t : List Char) (hns : ∀ c ∈ t, pyIsSpace c = false) :
    ∀ (cs acc : List Char), pySplitGo (t ++ cs) acc = pySplitGo cs (t.reverse ++ acc) := by
  induction t with
  | nil => intro cs acc; simp
  | cons c t ih =>
    intro cs acc
    have hc : pyIsSpace c = false := hns c (List.mem_cons_self c t)
    have ht : ∀ c ∈ t, pyIsSpace c = false := fun x hx => hns x (List.mem_cons_of_mem c hx)
    simp only [List.cons_append, pySplitGo, hc, Bool.false_eq_true, if_false,
      List.append_eq]
    rw [ih ht cs (c :: acc)]
    simp

/-- Joining tokens with single spaces, the list-level shape of
`" ".join(values)`. -/
def joinSp : List (List Char) → List Char
  | [] => []
  | [t] => t
  | t :: ts => t ++ ' ' :: joinSp ts

theorem pySplit_joinSp :
    ∀ ts : List (List Char), ts ≠ [] → (∀ t ∈ ts, t ≠ []) →
      (∀ t ∈ ts, ∀ c ∈ t, pyIsSpace c = false) →
      pySplit (joinSp ts) = ts := by
  intro ts
  induction ts with
  | nil => intro h; exact absurd rfl h
  | cons t ts ih =>
    intro _ hne hns
    have htne : t ≠ [] := hne t (List.mem_cons_self t ts)
    have htns : ∀ c ∈ t, pyIsSpace c = false := hns t (List.mem_cons_self t ts)
    cases ts with
    | nil =>
      show pySplit (joinSp [t]) = [t]
      unfold pySplit
      have := pySplitGo_token t htns [] []
      simp only [List.append_nil] at this
      rw [show joinSp [t] = t from rfl, this]
      unfold pySplitGo
      simp [htne]
    | cons t2 ts2 =>
      show pySplit (t ++ ' ' :: joinSp (t2 :: ts2)) = t :: t2 :: ts2
      unfold pySplit
      rw [pySplitGo_token t htns (' ' :: joinSp (t2 :: ts2)) []]
      have hsp : pyIsSpace ' ' = true := rfl
      have hrne : ¬(t.reverse ++ [] : List Char).isEmpty := by
        simp [List.isEmpty_iff, htne]
      simp only [pySplitGo, hsp, if_true, List.append_nil]
      rw [if_neg (by simpa using hrne)]
      simp only [List.reverse_reverse]
      have tail := ih (List.cons_ne_nil t2 ts2)
        (fun x hx => hne x (List.mem_cons_of_mem t hx))
        (fun x hx => hns x (List.mem_cons_of_mem t hx))
      unfold pySplit at tail
      rw [tail]

theorem pyStrip_eq_self (l : List Char)
    (h1 : ∀ c, l.head? = some c → pyIsSpace c = false)
    (h2 : ∀ c, l.getLast? = some c → pyIsSpace c = false) :
    pyStrip l = l := by
  cases hl : l with
  | nil => rfl
  | cons a as =>
    have ha : pyIsSpace a = false := h1 a (by rw [hl]; rfl)
    unfold pyStrip
    rw [← hl]
    have hdrop : l.dropWhile pyIsSpace = l := by
      rw [hl]
      simp [List.dropWhile_cons, ha]
    rw [hdrop]
    cases hr : l.reverse with
    | nil =>
      exfalso
      have : l = [] := by simpa using congrArg List.reverse hr
      rw [hl] at this; exact List.cons_ne_nil a as this
    | cons b bs =>
      have hb : l.getLast? = some b := by
        rw [← List.head?_reverse, hr]; rfl
      have hbs : pyIsSpace b = false := h2 b hb
      rw [List.dropWhile_cons]
      simp only [hbs, Bool.false_eq_true, if_false]
      rw [← hr, List.reverse_reverse]

theorem splitNl_of_no_nl (l : List Char) (h : ∀ c ∈ l, c ≠ '\n') :
    splitNl l = [l] := by
  induction l with
  | nil => rfl
  | cons c cs ih =>
    have hc : c ≠ '\n' := h c (List.mem_cons_self c cs)
    have hcs : splitNl cs = [cs] := ih fun x hx => h x (List.mem_cons_of_mem c hx)
    unfold splitNl
    rw [if_neg hc, hcs]

theorem mem_joinSp {c : Char} :
    ∀ ts : List (List Char), c ∈ joinSp ts → (∃ t ∈ ts, c ∈ t) ∨ c = ' ' := by
  intro ts
  induction ts with
  | nil => intro h; exact absurd h (List.not_mem_nil c)
  | cons t ts ih =>
    intro h
    cases ts with
    | nil =>
      exact Or.inl ⟨t, List.mem_cons_self t [], h⟩
    | cons t2 ts2 =>
      rw [show joinSp (t :: t2 :: ts2) = t ++ ' ' :: joinSp (t2 :: ts2) from rfl] at h
      rcases List.mem_append.mp h with h | h
      · exact Or.inl ⟨t, List.mem_cons_self t _, h⟩
      · rcases List.mem_cons.mp h with h | h
        · exact Or.inr h
        · rcases ih h with ⟨t', ht', hc⟩ | h
          · exact Or.inl ⟨t', List.mem_cons_of_mem t ht', hc⟩
          · exact Or.inr h

theorem mem_search_in_content (rm : String → String → Bool) (e : Encrypter)
    (pattern : String) (c : Credentials) :
    c ∈ Encrypter.search_in_content rm e pattern ↔
      c ∈ e.credentials ∧ rm pattern c.displayString = true := by
  unfold Encrypter.search_in_content
  by_cases h : e.credentials = ∅
  · simp [h]
  · simp [h, Finset.mem_filter]

theorem mem_parseLines (today : String) (c : Credentials) :
    ∀ (ls : List (List Char)) (i : Nat),
      c ∈ Credentials.parseLines today i ls ↔
        ∃ j, j < ls.length ∧
          Credentials.parseLine today (i + j) (ls.getD j []) = some c := by
  intro ls
  induction ls with
  | nil => intro i; simp [Credentials.parseLines]
  | cons l ls ih =>
    intro i
    cases hp : Credentials.parseLine today i l with
    | some c0 =>
      simp only [Credentials.parseLines, hp]
      constructor
      · intro hmem
        rcases List.mem_cons.mp hmem with heq | hmem2
        · exact ⟨0, Nat.succ_pos _, by simpa [heq] using hp⟩
        · rcases (ih (i + 1)).mp hmem2 with ⟨j, hj, hpj⟩
          refine ⟨j + 1, Nat.succ_lt_succ hj, ?_⟩
          rw [List.getD_cons_succ, show i + (j + 1) = (i + 1) + j by omega]
          exact hpj
      · rintro ⟨j, hj, hpj⟩
        cases j with
        | zero =>
          rw [Nat.add_zero, List.getD_cons_zero] at hpj
          rw [hp] at hpj
          exact List.mem_cons.mpr (Or.inl (Option.some.inj hpj).symm)
        | succ j =>
          apply List.mem_cons_of_mem
          apply (ih (i + 1)).mpr
          refine ⟨j, Nat.lt_of_succ_lt_succ hj, ?_⟩
          rw [List.getD_cons_succ, show i + (j + 1) = (i + 1) + j by omega] at hpj
          exact hpj
    | none =>
      simp only [Credentials.parseLines, hp]
      rw [ih (i + 1)]
      constructor
      · rintro ⟨j, hj, hpj⟩
        refine ⟨j + 1, Nat.succ_lt_succ hj, ?_⟩
        rw [List.getD_cons_succ, show i + (j + 1) = (i + 1) + j by omega]
        exact hpj
      · rintro ⟨j, hj, hpj⟩
        cases j with
        | zero =>
          rw [Nat.add_zero, List.getD_cons_zero, hp] at hpj
          exact absurd hpj (by simp)
        | succ j =>
          refine ⟨j, Nat.lt_of_succ_lt_succ hj, ?_⟩
          rw [List.getD_cons_succ, show i + (j + 1) = (i + 1) + j by omega] at hpj
          exact hpj

theorem probeNames_free (existsFile : String → Bool) (dateStr : String) :
    ∀ fuel i name, Encrypter.probeNames existsFile dateStr fuel i = some name →
      existsFile name = false := by
  intro fuel
  induction fuel with
  | zero =>
    intro i name h
    exact absurd h (by simp [Encrypter.probeNames])
  | succ fuel ih =>
    intro i name h
    unfold Encrypter.probeNames at h
    by_cases he : existsFile (Encrypter.snapshotName dateStr i) = true
    · rw [if_pos he] at h
      exact ih (i + 1) name h
    · rw [if_neg he] at h
      rw [← Option.some.inj h]
      exact Bool.not_eq_true _ ▸ he

/-- Unpacking a `dd.mm.yyyy`-shaped date string: it passes the source's
regex, contains no whitespace, is non-empty, and ends in a digit. -/
theorem wellFormedDate_facts {d : String} (hd : wellFormedDate d = true) :
    matchesDatePattern d = true ∧ (∀ ch ∈ d.data, pyIsSpace ch = false) ∧
      d.data ≠ [] ∧ ∃ pre y, d.data = pre ++ [y] ∧ isDig y = true := by
  unfold wellFormedDate at hd
  split at hd
  next d1 d2 s1 m1 m2 s2 y1 y2 y3 y4 heq =>
    simp only [Bool.and_eq_true, beq_iff_eq] at hd
    obtain ⟨⟨⟨⟨⟨⟨⟨⟨⟨h1, h2⟩, h3⟩, h4⟩, h5⟩, h6⟩, h7⟩, h8⟩, h9⟩, h10⟩ := hd
    refine ⟨?_, ?_, ?_, ?_⟩
    · unfold matchesDatePattern
      rw [heq]
      simp [h1, h2, h3, h4, h5, h6, h7, h8, h9, h10]
    · intro ch hch
      rw [heq] at hch
      simp only [List.mem_cons, List.not_mem_nil, or_false] at hch
      rcases hch with rfl | rfl | rfl | rfl | rfl | rfl | rfl | rfl | rfl | rfl
      · exact digit_not_space h1
      · exact digit_not_space h2
      · rw [h3]; decide
      · exact digit_not_space h4
      · exact digit_not_space h5
      · rw [h6]; decide
      · exact digit_not_space h7
      · exact digit_not_space h8
      · exact digit_not_space h9
      · exact digit_not_space h10
    · rw [heq]; simp
    · exact ⟨[d1, d2, s1, m1, m2, s2, y1, y2, y3], y4, by rw [heq]; rfl, h10⟩
  next => exact absurd hd (by simp)

/-! ### Concrete sample data used by counterexamples and witnesses -/

/-- A store holding one record (id 1). -/
def sampleRecord : Credentials := ⟨1, "r", "l", "p", "authentication", "01.01.2023"⟩

def sampleStore : Encrypter := ⟨{sampleRecord}, false, none⟩

/-- A record whose resource has an upper-case letter, for the
case-sensitivity question. -/
def gmailRecord : Credentials :=
  ⟨1, "Gmail.com", "login", "password", "authentication", "01.01.2023"⟩

def gmailStore : Encrypter := ⟨{gmailRecord}, false, none⟩

/-! ### Claims -/

/-- Claim C1, counterexample.  The claim says re-adding an already-present
record's textual line is a no-op on membership and size.  In the code,
`add_content` re-parses the line with `id_start_from = items_count() + 1`,
so the parsed record carries the fresh id 2; dataclass equality includes
the id, so the record is NOT deduplicated against the stored copy with
id 1 and the store grows from 1 to 2 records. -/
theorem C1_counterexample :
    sampleRecord ∈ sampleStore.credentials ∧
    Credentials.as_line sampleRecord = "r l p authentication 01.01.2023" ∧
    sampleStore.items_count = 1 ∧
    (Encrypter.add_content "12.10.2026" sampleStore
      "r l p authentication 01.01.2023").items_count = 2 := by decide

/-- Claim C1, amended.  `add_content` unions the freshly parsed records
(ids continuing from `items_count() + 1`) into the store; deduplication
is by equality of all fields, the id included.  Hence the store's
membership is unchanged by an add exactly when every parsed record,
with its fresh id, is already present — re-adding an existing record's
textual line instead inserts a new copy under a new id. -/
theorem C1_add_is_union_dedup_by_all_fields (today : String) (e : Encrypter)
    (content : String) :
    (Encrypter.add_content today e content).credentials = e.credentials ↔
      Credentials.from_string today content (e.items_count + 1) ⊆ e.credentials := by
  unfold Encrypter.add_content Encrypter.update_credentials
  exact Finset.union_eq_left

/-- Claim C2, counterexample.  Adding content that inserts nothing (here
the unparseable line `"x"`) leaves membership unchanged but still flips
the dirty flag from `false` to `true`, contradicting "set true if and
only if the operation changed the store's membership". -/
theorem C2_counterexample :
    sampleStore.is_content_updated = false ∧
    (Encrypter.add_content "12.10.2026" sampleStore "x").credentials =
      sampleStore.credentials ∧
    (Encrypter.add_content "12.10.2026" sampleStore "x").is_content_updated =
      true := by decide

/-- Claim C2, amended.  The dirty flag starts `false`; `add_content` sets
it `true` unconditionally (even when nothing new was inserted), and
`remove_credentials` sets it `true` whenever the pattern is non-empty
(even when nothing matched), while an empty pattern leaves the state
untouched. -/
theorem C2_dirty_set_unconditionally (today content pattern : String)
    (rm : String → String → Bool) (e e2 : Encrypter) :
    Encrypter.initState.is_content_updated = false ∧
    (Encrypter.add_content today e content).is_content_updated = true ∧
    (pattern ≠ "" →
      (Encrypter.remove_credentials rm e2 pattern).1.is_content_updated = true) ∧
    (pattern = "" → (Encrypter.remove_credentials rm e2 pattern).1 = e2) := by
  refine ⟨rfl, rfl, ?_, ?_⟩
  · intro hp
    simp only [Encrypter.remove_credentials, if_neg hp]
  · intro hp
    simp only [Encrypter.remove_credentials, if_pos hp]

/-- Claim C2 witness: the amended theorem applied to a concrete no-match
removal with the non-empty pattern `"q"`. -/
theorem C2_witness :
    (Encrypter.remove_credentials litSearch sampleStore "q").1.is_content_updated =
      true :=
  (C2_dirty_set_unconditionally "12.10.2026" "x" "q" litSearch sampleStore
    sampleStore).2.2.1 (by decide)

/-- Claim C3, counterexample.  `remove_credentials` is annotated
`-> None` and returns `None`, not the count of deleted records: here the
search matches exactly one record, yet the method's return value is
`None` rather than `1`. -/
theorem C3_counterexample :
    (Encrypter.search_in_content litSearch sampleStore "r").card = 1 ∧
    (Encrypter.remove_credentials litSearch sampleStore "r").2 = none ∧
    (Encrypter.remove_credentials litSearch sampleStore "r").2 ≠
      some (Encrypter.search_in_content litSearch sampleStore "r").card := by
  decide

/-- Claim C3, amended.  For every non-empty pattern,
`remove_credentials` deletes from the store exactly the set of records
that `search_in_content` matches, a subsequent search with the same
pattern returns empty — but the method returns `None` (the count is only
logged), not the count of deleted records. -/
theorem C3_remove_deletes_search_matches (rm : String → String → Bool)
    (e : Encrypter) (pattern : String) (hp : pattern ≠ "") :
    (Encrypter.remove_credentials rm e pattern).1.credentials =
      e.credentials \ Encrypter.search_in_content rm e pattern ∧
    Encrypter.search_in_content rm
      (Encrypter.remove_credentials rm e pattern).1 pattern = ∅ ∧
    (Encrypter.remove_credentials rm e pattern).2 = none := by
  simp only [Encrypter.remove_credentials, if_neg hp]
  refine ⟨trivial, ?_, trivial⟩
  apply Finset.eq_empty_iff_forall_not_mem.mpr
  intro c hc
  rw [mem_search_in_content] at hc
  rcases hc with ⟨hcmem, hcmatch⟩
  rcases Finset.mem_sdiff.mp hcmem with ⟨hce, hnot⟩
  exact hnot (by rw [mem_search_in_content]; exact ⟨hce, hcmatch⟩)

/-- Claim C3 witness: the amended theorem applied to the one-record store
and the literal pattern `"r"`. -/
theorem C3_witness :
    (Encrypter.remove_credentials litSearch sampleStore "r").1.credentials =
      sampleStore.credentials \
        Encrypter.search_in_content litSearch sampleStore "r" ∧
    Encrypter.search_in_content litSearch
      (Encrypter.remove_credentials litSearch sampleStore "r").1 "r" = ∅ ∧
    (Encrypter.remove_credentials litSearch sampleStore "r").2 = none :=
  C3_remove_deletes_search_matches litSearch sampleStore "r" (by decide)

/-- Claim C4, counterexample.  `search_in_content` calls `re.search`
without `re.IGNORECASE`, so matching is case sensitive: the literal
pattern `"gmail"` does occur in the record's display string under case
folding (lower-casing both sides), yet the search returns the empty set
instead of the record. -/
theorem C4_counterexample :
    gmailRecord ∈ gmailStore.credentials ∧
    litSearch "gmail" (pyLower gmailRecord.displayString) = true ∧
    Encrypter.search_in_content litSearch gmailStore "gmail" = ∅ := by decide

/-- Claim C4, amended.  For every pattern and store, `search_in_content`
returns exactly the stored records whose display string (`str(c)`) the
pattern matches under `re.search` with no flags — i.e. case-SENSITIVELY;
a record is in the result iff it is in the store and the (case-sensitive)
match succeeds. -/
theorem C4_search_is_case_sensitive_match (rm : String → String → Bool)
    (e : Encrypter) (pattern : String) (c : Credentials) :
    c ∈ Encrypter.search_in_content rm e pattern ↔
      c ∈ e.credentials ∧ rm pattern c.displayString = true :=
  mem_search_in_content rm e pattern c

set_option maxRecDepth 8000 in
/-- Claim C5, counterexample.  With a directory in which every name
exists (the membership predicate is constantly `true`, so in particular
all 999 dated names exist), `_generate_file_path` does not raise: it
returns the uuid fallback name, and that returned path refers to an
existing file (no existence check is made on the fallback). -/
theorem C5_counterexample :
    Encrypter.generate_file_path (fun _ => true) "01012023" "0f0f0f" =
      "0f0f0f.gpg" ∧
    (fun _ : String => true) "0f0f0f.gpg" = true := by
  constructor
  · decide
  · rfl

/-- Claim C5, amended.  `_generate_file_path` probes the 999 dated names
and returns the first one that does not exist; if all 999 exist it logs
an error and returns `str(uuid.uuid4()) + ".gpg"` instead of raising —
and that fallback is returned without any existence check, so the
returned path is guaranteed fresh only when it comes from the probing
loop. -/
theorem C5_generate_path_free_or_uuid_fallback (existsFile : String → Bool)
    (dateStr uuidStr : String) :
    existsFile (Encrypter.generate_file_path existsFile dateStr uuidStr) = false ∨
    Encrypter.generate_file_path existsFile dateStr uuidStr = uuidStr ++ ".gpg" := by
  unfold Encrypter.generate_file_path
  cases h : Encrypter.probeNames existsFile dateStr 999 1 with
  | none => exact Or.inr rfl
  | some name => exact Or.inl (probeNames_free existsFile dateStr 999 1 name h)

/-- Claim C6.  Opening a session on a plaintext (non-`gpg`) seed file
goes through `_get_credentials_from_text_file`, hence through
`_update_credentials`, which sets the dirty flag — before any add or
remove and regardless of whether a newest encrypted file is then merged.
Consequently closing such a session (with a successful backend) always
writes a new encrypted snapshot, even with no caller mutations. -/
theorem C6_open_text_seed_sets_dirty (today seedText : String)
    (newest : Option (String × Bool × String)) (e : Encrypter)
    (h : Encrypter.handle_text_file_path today seedText newest = Except.ok e) :
    e.is_content_updated = true ∧
    ∀ newPath : String,
      (Encrypter.encrypt_into_new_file_if_content_updated true newPath e).2 =
        Except.ok (some newPath) := by
  have hflag : e.is_content_updated = true := by
    cases newest with
    | none =>
      simp only [Encrypter.handle_text_file_path] at h
      rw [← Except.ok.inj h]
      rfl
    | some triple =>
      obtain ⟨path, ok, data⟩ := triple
      simp only [Encrypter.handle_text_file_path,
        Encrypter.decrypt_file_into] at h
      by_cases hok : ok = true
      · rw [if_pos hok] at h
        rw [← Except.ok.inj h]
        rfl
      · rw [if_neg hok] at h
        exact absurd h (by simp)
  refine ⟨hflag, ?_⟩
  intro newPath
  simp [Encrypter.encrypt_into_new_file_if_content_updated, hflag,
    Encrypter.encrypt_bytes_content_into_file]

/-- Claim C6 witness: a concrete session opened on a one-line seed file
in a directory with no encrypted snapshot. -/
theorem C6_witness :
    (⟨{⟨1, "r", "l", "p", "authentication", "01.01.2023"⟩}, true, none⟩ :
      Encrypter).is_content_updated = true ∧
    ∀ newPath : String,
      (Encrypter.encrypt_into_new_file_if_content_updated true newPath
        ⟨{⟨1, "r", "l", "p", "authentication", "01.01.2023"⟩}, true, none⟩).2 =
        Except.ok (some newPath) :=
  C6_open_text_seed_sets_dirty "12.10.2026" "r l p authentication 01.01.2023"
    none _ (by rfl)

/-- Claim C7, counterexample.  The claim says construction fails iff some
field contains whitespace or `updated_on` is not a `dd.mm.yyyy` date.
The code only rejects the space character (a tab in `resource` is
accepted), and its regex `\d\d.\d\d.\d\d\d\d` treats `.` as a
non-newline wildcard and is unanchored at the end, so `"12x34x5678"` is
accepted although it is not of the `dd.mm.yyyy` shape (while a newline
in a wildcard position, as in `"12\n34.5678"`, is still rejected). -/
theorem C7_counterexample :
    (Credentials.mk? 1 "a\tb" "l" "p" "authentication" "01.01.2023").isSome =
      true ∧
    pyIsSpace '\t' = true ∧
    (Credentials.mk? 1 "r" "l" "p" "authentication" "12x34x5678").isSome =
      true ∧
    wellFormedDate "12x34x5678" = false ∧
    Credentials.mk? 1 "r" "l" "p" "authentication" "12\n34.5678" = none := by
  decide

/-- Claim C7, amended.  Construction fails with `ValueError` iff at least
one of the five string fields (`updated_on` included) contains the space
character U+0020 — other whitespace is accepted — or `updated_on` fails
`re.match(r"\d\d.\d\d.\d\d\d\d", ..)`, where `.` matches any character
except a newline and trailing characters are unconstrained. -/
theorem C7_validation_iff_space_or_regex (i : Nat) (r l p k d : String) :
    Credentials.mk? i r l p k d = none ↔
      (hasSpaceChar r = true ∨ hasSpaceChar l = true ∨ hasSpaceChar p = true ∨
        hasSpaceChar k = true ∨ hasSpaceChar d = true ∨
        matchesDatePattern d = false) := by
  simp only [Credentials.mk?, Credentials.validFields]
  constructor
  · intro h
    by_contra hc
    push_neg at hc
    obtain ⟨h1, h2, h3, h4, h5, h6⟩ := hc
    simp only [ne_eq, Bool.not_eq_true] at h1 h2 h3 h4 h5
    simp only [ne_eq, Bool.not_eq_false] at h6
    rw [if_pos (by simp [h1, h2, h3, h4, h5, h6])] at h
    exact Option.some_ne_none _ h
  · intro hd
    rw [if_neg]
    intro hv
    simp only [Bool.and_eq_true, Bool.not_eq_true'] at hv
    obtain ⟨⟨⟨⟨⟨h1, h2⟩, h3⟩, h4⟩, h5⟩, h6⟩ := hv
    rcases hd with h | h | h | h | h | h <;> simp_all

/-- Claim C10.  Parsing a multi-record blob never raises (the model is a
total function because the source wraps each line in `try/except`): a
record is in the parse result iff some line of the stripped, newline-split
text parses successfully to it under its enumerated id — every bad line
is skipped and every remaining valid line is still parsed. -/
theorem C10_parse_skips_bad_lines_only (today text : String) (idStart : Nat)
    (c : Credentials) :
    c ∈ Credentials.from_string today text idStart ↔
      ∃ j, j < (splitNl (pyStrip text.data)).length ∧
        Credentials.parseLine today (idStart + j)
          ((splitNl (pyStrip text.data)).getD j []) = some c := by
  unfold Credentials.from_string
  rw [List.mem_toFinset]
  exact mem_parseLines today c _ idStart

/-- Claim C8, counterexample.  An empty `resource` contains no whitespace
and the date is well-formed, so the claim's hypotheses hold and
construction succeeds; but `as_line` then starts with a space, the
re-parse sees only four tokens, and the resulting record's fields are
shifted — `resource` comes back as `"l"`, not `""`. -/
theorem C8_counterexample :
    hasSpaceChar "" = false ∧
    wellFormedDate "01.01.2023" = true ∧
    Credentials.mk? 1 "" "l" "p" "authentication" "01.01.2023" =
      some ⟨1, "", "l", "p", "authentication", "01.01.2023"⟩ ∧
    Credentials.from_string "12.10.2026"
      (Credentials.as_line ⟨1, "", "l", "p", "authentication", "01.01.2023"⟩) 1 =
      {⟨1, "l", "p", "authentication", "01.01.2023", "12.10.2026"⟩} ∧
    (⟨1, "l", "p", "authentication", "01.01.2023", "12.10.2026"⟩ :
      Credentials).resource ≠
      (⟨1, "", "l", "p", "authentication", "01.01.2023"⟩ :
        Credentials).resource := by decide

/-- Claim C8, amended.  For every record whose `resource`, `login`,
`password`, `kind` are NON-EMPTY and contain no whitespace and whose
`updated_on` has the `dd.mm.yyyy` character shape, construction succeeds
and `as_line` re-parsed through `from_string` yields exactly one record
whose fields other than the id equal the original's (the id restarts at
the given `id_start_from`, here 1). -/
theorem C8_round_trip_nonempty_fields (today : String) (i : Nat)
    (r l p k d : String)
    (hr : r.data ≠ []) (hl : l.data ≠ []) (hp : p.data ≠ []) (hk : k.data ≠ [])
    (hrw : ∀ ch ∈ r.data, pyIsSpace ch = false)
    (hlw : ∀ ch ∈ l.data, pyIsSpace ch = false)
    (hpw : ∀ ch ∈ p.data, pyIsSpace ch = false)
    (hkw : ∀ ch ∈ k.data, pyIsSpace ch = false)
    (hd : wellFormedDate d = true) :
    Credentials.mk? i r l p k d = some ⟨i, r, l, p, k, d⟩ ∧
    Credentials.from_string today (Credentials.as_line ⟨i, r, l, p, k, d⟩) 1 =
      {⟨1, r, l, p, k, d⟩} := by
  obtain ⟨hmp, hdw, hdne, pre, y, hpre, hy⟩ := wellFormedDate_facts hd
  have hmk : ∀ j : Nat, Credentials.mk? j r l p k d = some ⟨j, r, l, p, k, d⟩ := by
    intro j
    unfold Credentials.mk?
    rw [if_pos]
    unfold Credentials.validFields
    simp [hasSpaceChar_eq_false hrw, hasSpaceChar_eq_false hlw,
      hasSpaceChar_eq_false hpw, hasSpaceChar_eq_false hkw,
      hasSpaceChar_eq_false hdw, hmp]
  have hline : (Credentials.as_line ⟨i, r, l, p, k, d⟩).data =
      joinSp [r.data, l.data, p.data, k.data, d.data] := by
    show (r ++ " " ++ l ++ " " ++ p ++ " " ++ k ++ " " ++ d).data = _
    simp only [joinSp]
    show r.data ++ " ".data ++ l.data ++ " ".data ++ p.data ++ " ".data ++
      k.data ++ " ".data ++ d.data = _
    simp [List.append_assoc]
  obtain ⟨rc, rt, hrc⟩ := List.exists_cons_of_ne_nil hr
  have hhead : ∀ ch, (Credentials.as_line ⟨i, r, l, p, k, d⟩).data.head? = some ch →
      pyIsSpace ch = false := by
    intro ch hch
    rw [hline, hrc] at hch
    simp only [joinSp, List.cons_append, List.head?_cons] at hch
    cases Option.some.inj hch
    exact hrw rc (by rw [hrc]; exact List.mem_cons_self _ _)
  have hlast : ∀ ch, (Credentials.as_line ⟨i, r, l, p, k, d⟩).data.getLast? = some ch →
      pyIsSpace ch = false := by
    intro ch hch
    rw [hline, hpre] at hch
    have hre : joinSp [r.data, l.data, p.data, k.data, pre ++ [y]] =
        (r.data ++ ' ' :: (l.data ++ ' ' :: (p.data ++ ' ' ::
          (k.data ++ ' ' :: pre)))) ++ [y] := by
      simp [joinSp, List.append_assoc]
    rw [hre, List.getLast?_concat] at hch
    cases Option.some.inj hch
    exact digit_not_space hy
  have hstrip : pyStrip (Credentials.as_line ⟨i, r, l, p, k, d⟩).data =
      (Credentials.as_line ⟨i, r, l, p, k, d⟩).data :=
    pyStrip_eq_self _ hhead hlast
  have hnl : ∀ ch ∈ (Credentials.as_line ⟨i, r, l, p, k, d⟩).data, ch ≠ '\n' := by
    intro ch hch
    rw [hline] at hch
    rcases mem_joinSp _ hch with ⟨t, ht, hcht⟩ | rfl
    · simp only [List.mem_cons, List.not_mem_nil, or_false] at ht
      rcases ht with rfl | rfl | rfl | rfl | rfl
      · exact not_space_ne_nl (hrw ch hcht)
      · exact not_space_ne_nl (hlw ch hcht)
      · exact not_space_ne_nl (hpw ch hcht)
      · exact not_space_ne_nl (hkw ch hcht)
      · exact not_space_ne_nl (hdw ch hcht)
    · decide
  have hsp : pySplit (Credentials.as_line ⟨i, r, l, p, k, d⟩).data =
      [r.data, l.data, p.data, k.data, d.data] := by
    rw [hline]
    apply pySplit_joinSp
    · simp
    · intro t ht
      simp only [List.mem_cons, List.not_mem_nil, or_false] at ht
      rcases ht with rfl | rfl | rfl | rfl | rfl
      · exact hr
      · exact hl
      · exact hp
      · exact hk
      · exact hdne
    · intro t ht
      simp only [List.mem_cons, List.not_mem_nil, or_false] at ht
      rcases ht with rfl | rfl | rfl | rfl | rfl
      · exact hrw
      · exact hlw
      · exact hpw
      · exact hkw
      · exact hdw
  have hparse : Credentials.parseLine today 1
      (Credentials.as_line ⟨i, r, l, p, k, d⟩).data = some ⟨1, r, l, p, k, d⟩ := by
    unfold Credentials.parseLine
    rw [hsp]
    simp only [List.map]
    show Credentials.mk? 1 r l p k d = some ⟨1, r, l, p, k, d⟩
    exact hmk 1
  refine ⟨hmk i, ?_⟩
  unfold Credentials.from_string
  rw [hstrip, splitNl_of_no_nl _ hnl]
  simp only [Credentials.parseLines, hparse]
  simp

/-- Claim C8 witness: the amended round-trip at a concrete record. -/
theorem C8_witness :
    Credentials.mk? 7 "gmail.com" "user" "pw" "authentication" "01.01.2023" =
      some ⟨7, "gmail.com", "user", "pw", "authentication", "01.01.2023"⟩ ∧
    Credentials.from_string "12.10.2026"
      (Credentials.as_line
        ⟨7, "gmail.com", "user", "pw", "authentication", "01.01.2023"⟩) 1 =
      {⟨1, "gmail.com", "user", "pw", "authentication", "01.01.2023"⟩} :=
  C8_round_trip_nonempty_fields "12.10.2026" 7 "gmail.com" "user" "pw"
    "authentication" "01.01.2023" (by decide) (by decide) (by decide)
    (by decide) (by decide) (by decide) (by decide) (by decide) (by decide)

/-- Claim C9.  If the cipher backend reports failure while committing a
dirty store, `encrypt_into_new_file_if_content_updated` raises
(`RuntimeError`, the `Except.error` case), the session state is left
exactly as it was, and in particular the dirty flag remains set, so the
commit can be retried. -/
theorem C9_commit_failure_keeps_dirty (newPath : String) (e : Encrypter)
    (h : e.is_content_updated = true) :
    (Encrypter.encrypt_into_new_file_if_content_updated false newPath e).2 =
      Except.error () ∧
    (Encrypter.encrypt_into_new_file_if_content_updated false newPath e).1 = e ∧
    (Encrypter.encrypt_into_new_file_if_content_updated false newPath e).1.is_content_updated =
      true := by
  simp [Encrypter.encrypt_into_new_file_if_content_updated, h,
    Encrypter.encrypt_bytes_content_into_file]

/-- Claim C9 witness: the theorem applied to a concrete dirty store. -/
theorem C9_witness :
    (Encrypter.encrypt_into_new_file_if_content_updated false "p.gpg"
      ⟨∅, true, none⟩).2 = Except.error () ∧
    (Encrypter.encrypt_into_new_file_if_content_updated false "p.gpg"
      ⟨∅, true, none⟩).1 = ⟨∅, true, none⟩ ∧
    (Encrypter.encrypt_into_new_file_if_content_updated false "p.gpg"
      (⟨∅, true, none⟩ : Encrypter)).1.is_content_updated = true :=
  C9_commit_failure_keeps_dirty "p.gpg" ⟨∅, true, none⟩ rfl
